import Mathlib

/-!
# Verification of the employee-registration service (src/server.js)

A shallow embedding of the single request handler `app.post('/register')`
together with the Mongoose `employeeSchema` it persists through.

Modelling conventions:
* JS strings are Lean `String`s; the Mongoose `trim` / `lowercase` setters are
  modelled on the underlying character list (`String.data`), with whitespace
  given by `Char.isWhitespace` and lowercasing by the ASCII `Char.toLower`
  (the service only manipulates ASCII form input).
* Dates are kept opaque: `dateOfJoining` stays the submitted string and
  `registrationDate` is a `Nat` timestamp (`Date.now` is the `now` argument).
* The store (MongoDB via Mongoose) is a list of already-persisted documents.
  `findOne` is a list search against the schema-normalised query value;
  `save` runs schema validation and then the unique-index check, returning
  the thrown JS error object on failure.
* The handler's `try`/`catch` is `Except`: each awaited store operation either
  returns a value or throws a `JsError` that the catch block inspects by its
  `name`, exactly as `error.name === 'ValidationError'` does in the source.
-/

namespace EmployeeReg

/-- Strip leading whitespace characters, as `String.prototype.trim` does on
the left end of a JS string. -/
def stripLeadWS : List Char → List Char
  | [] => []
  | c :: cs => if c.isWhitespace then stripLeadWS cs else c :: cs

/-- Both-ended whitespace strip on character lists: leading strip, then a
leading strip of the reversal (i.e. a trailing strip). -/
def trimChars (l : List Char) : List Char :=
  (stripLeadWS (stripLeadWS l).reverse).reverse

/-- The Mongoose `trim: true` setter / JS `String.prototype.trim`. -/
def jsTrim (s : String) : String := ⟨trimChars s.data⟩

/-- The Mongoose `lowercase: true` setter (ASCII case mapping). -/
def jsLower (s : String) : String := ⟨s.data.map Char.toLower⟩

/-- The full normalisation the schema applies to `email`: trim then
lowercase. -/
def normEmail (s : String) : String := jsLower (jsTrim s)

/-- The search the unanchored regex `/\S+@\S+\.\S+/` performs (the `match`
validator on `email` in `employeeSchema`): somewhere in the string there is a
non-space character, then `@`, then one or more non-space characters, then
`.`, then a non-space character. -/
def emailMatch (s : String) : Bool :=
  let cs := s.data
  let n := cs.length
  (List.range n).any fun i =>
    (List.range n).any fun k =>
      decide (1 ≤ i) && decide (i + 2 ≤ k) && decide (k + 1 < n) &&
      (cs.getD i ' ' == '@') && (cs.getD k ' ' == '.') &&
      !(cs.getD (i - 1) ' ').isWhitespace && !(cs.getD (k + 1) ' ').isWhitespace &&
      ((List.range n).all fun j =>
        !(decide (i < j) && decide (j < k)) || !(cs.getD j ' ').isWhitespace)

/-- A persisted employee document (the Mongoose model `Employee`), with the
schema setters already applied: the stored `email` is trimmed and lowercased,
the other string fields are trimmed. `id` is the store-assigned `_id`. -/
structure Employee where
  id : Nat
  fullName : String
  email : String
  employeeId : String
  department : String
  position : String
  dateOfJoining : String
  registrationDate : Nat
deriving DecidableEq

/-- The document collection behind the model. -/
abbrev Store := List Employee

/-- The request body as destructured by the handler. `none` models an absent
(or `null`) property; the seventh field exists only to show the handler never
reads a client-supplied `registrationDate`. -/
structure Body where
  fullName : Option String
  email : Option String
  employeeId : Option String
  department : Option String
  position : Option String
  dateOfJoining : Option String
  registrationDate : Option String
deriving DecidableEq

/-- JS falsiness of a destructured body property: absent, `null` or the empty
string (the only falsy string). -/
def falsy : Option String → Bool
  | none => true
  | some s => s == ""

/-- The presence check `!fullName || !email || !employeeId || !department ||
!position || !dateOfJoining`. -/
def missingAny (b : Body) : Bool :=
  falsy b.fullName || falsy b.email || falsy b.employeeId ||
    falsy b.department || falsy b.position || falsy b.dateOfJoining

/-- `new Employee({...})`: builds the document from the six submitted fields,
applying the schema setters (`trim`, and `lowercase` on `email`), assigning
the store id and the `default: Date.now` value of `registrationDate`. -/
def buildDoc (now newId : Nat) (b : Body) : Employee where
  id := newId
  fullName := jsTrim (b.fullName.getD "")
  email := normEmail (b.email.getD "")
  employeeId := jsTrim (b.employeeId.getD "")
  department := jsTrim (b.department.getD "")
  position := jsTrim (b.position.getD "")
  dateOfJoining := b.dateOfJoining.getD ""
  registrationDate := now

/-- Schema validation run by Mongoose on `save`: each `required` rule fails on
an empty (post-trim) string, and the `match` rule on `email` fails when the
regex finds no match. Returns the per-path map `error.errors` (path,
message), in schema declaration order. -/
def validateDoc (d : Employee) : List (String × String) :=
  (if d.fullName = "" then [("fullName", "Full name is required.")] else []) ++
  (if d.email = "" then [("email", "Email is required.")]
   else if emailMatch d.email then []
   else [("email", "Please enter a valid email address.")]) ++
  (if d.employeeId = "" then [("employeeId", "Employee ID is required.")] else []) ++
  (if d.department = "" then [("department", "Department is required.")] else []) ++
  (if d.position = "" then [("position", "Position is required.")] else []) ++
  (if d.dateOfJoining = "" then [("dateOfJoining", "Date of joining is required.")] else [])

/-- A thrown JS error object, as far as the catch block inspects it: its
`name`, its Mongoose `errors` map (per-path messages, present on
`ValidationError`), and the duplicated key paths of an E11000 duplicate-key
rejection. -/
structure JsError where
  name : String
  fieldErrors : List (String × String)
  keyValue : List String
deriving DecidableEq

/-- A Mongoose `ValidationError` carrying the per-path map. -/
def validationError (errs : List (String × String)) : JsError :=
  ⟨"ValidationError", errs, []⟩

/-- The `MongoServerError` (code E11000) thrown when the unique index on
`field` rejects an insert. Its `name` is not `ValidationError`. -/
def duplicateKeyError (field : String) : JsError :=
  ⟨"MongoServerError", [], [field]⟩

/-- The projection of the created record placed in the 201 body: only `_id`,
`fullName`, `email`, `employeeId`. -/
structure EmployeeView where
  id : Nat
  fullName : String
  email : String
  employeeId : String
deriving DecidableEq

/-- The JSON response the handler produces: HTTP status, `message`, the
optional `errors` map, and the optional `employee` projection. -/
structure Response where
  status : Nat
  message : String
  errors : Option (List (String × String))
  employee : Option EmployeeView
deriving DecidableEq

/-- `res.status(400).json({ message: 'All fields are required.' })`. -/
def requiredResp : Response :=
  ⟨400, "All fields are required.", none, none⟩

/-- The duplicate-email pre-check rejection. -/
def emailConflictResp : Response :=
  ⟨400, "An employee with this email already exists.",
    some [("email", "Email already in use.")], none⟩

/-- The duplicate-employeeId pre-check rejection. -/
def idConflictResp : Response :=
  ⟨400, "An employee with this Employee ID already exists.",
    some [("employeeId", "Employee ID already in use.")], none⟩

/-- The generic 500 fallback of the catch block. -/
def serverErrorResp : Response :=
  ⟨500, "Server error during registration. Please try again later.", none, none⟩

/-- The 400 produced by translating a `ValidationError`'s per-path map. -/
def validationResp (errs : List (String × String)) : Response :=
  ⟨400, "Validation failed. Please check your input.", some errs, none⟩

/-- The 201 success response with the minimal projection of the saved
record. -/
def successResp (r : Employee) : Response :=
  ⟨201, "Employee registered successfully!", none,
    some ⟨r.id, r.fullName, r.email, r.employeeId⟩⟩

/-- The catch block: an error whose `name` is `ValidationError` has every key
of its `errors` map translated to `{ msg }` and is surfaced as a 400;
anything else becomes the generic 500. -/
def catchHandler (e : JsError) : Response :=
  if e.name == "ValidationError" then validationResp e.fieldErrors
  else serverErrorResp

/-- `Employee.findOne({ email })`: the query value is cast through the schema
(trim + lowercase) and compared with the stored field. -/
def findByEmail (s : Store) (v : String) : Option Employee :=
  s.find? fun r => r.email == normEmail v

/-- `Employee.findOne({ employeeId })`: the query value is cast through the
schema (trim) and compared with the stored field. -/
def findById (s : Store) (v : String) : Option Employee :=
  s.find? fun r => r.employeeId == jsTrim v

/-- `newEmployee.save()`: Mongoose first runs schema validation (throwing a
`ValidationError` with the per-path map), then the insert hits the unique
indexes on `email` and `employeeId`, which reject a duplicate with an E11000
`MongoServerError`. On success the saved document is returned. -/
def mongooseSave (s : Store) (d : Employee) : Except JsError Employee :=
  match validateDoc d with
  | [] =>
    if s.any fun r => r.email == d.email then
      .error (duplicateKeyError "email")
    else if s.any fun r => r.employeeId == d.employeeId then
      .error (duplicateKeyError "employeeId")
    else .ok d
  | errs => .error (validationError errs)

/-- The body of `app.post('/register')` inside `try`/`catch`, with the three
awaited store operations passed as their outcomes (`Except.error` is a
rejected promise, handed to the catch block). Returns the response and the
document that was inserted, if any. -/
def tryRegister (findE findI : Except JsError (Option Employee))
    (saveRes : Except JsError Employee) (b : Body) :
    Response × Option Employee :=
  if missingAny b then (requiredResp, none)
  else
    match findE with
    | .error e => (catchHandler e, none)
    | .ok (some _) => (emailConflictResp, none)
    | .ok none =>
      match findI with
      | .error e => (catchHandler e, none)
      | .ok (some _) => (idConflictResp, none)
      | .ok none =>
        match saveRes with
        | .error e => (catchHandler e, none)
        | .ok saved => (successResp saved, some saved)

/-- One request against a working store: the pre-checks read the snapshot
`s₁`; the insert runs against the snapshot `s₂` (which may have gained
records from concurrent requests in between — `s₂ = s₁` is the race-free
case). Returns the response and the store after the request. -/
def register (now newId : Nat) (s₁ s₂ : Store) (b : Body) : Response × Store :=
  let d := buildDoc now newId b
  let out := tryRegister (.ok (findByEmail s₁ (b.email.getD "")))
    (.ok (findById s₁ (b.employeeId.getD ""))) (mongooseSave s₂ d) b
  match out.2 with
  | some r => (out.1, s₂ ++ [r])
  | none => (out.1, s₂)

/-- A sequential history: each submission runs `register` against the store
left by the previous one (no interleaving, `s₁ = s₂`). -/
def registerStep (s : Store) (x : Nat × Nat × Body) : Store :=
  (register x.1 x.2.1 s s x.2.2).2

/-- The store produced by a sequence of submissions starting from the empty
collection. -/
def registerAll (l : List (Nat × Nat × Body)) : Store :=
  l.foldl registerStep []

/-- The well-formedness the handler maintains on the collection: every stored
value is a fixed point of the schema setters, and the two unique indexes
hold — no two documents share a (trimmed, lowercased) email nor a (trimmed)
employeeId. -/
def StoreWF (s : Store) : Prop :=
  (∀ r ∈ s, normEmail r.email = r.email ∧ jsTrim r.employeeId = r.employeeId) ∧
    s.Pairwise fun a b =>
      normEmail a.email ≠ normEmail b.email ∧
        jsTrim a.employeeId ≠ jsTrim b.employeeId


/-- Scenario A's submission. -/
def bodyJane : Body :=
  ⟨some "Jane Doe", some "jane@x.com", some "E1", some "Eng", some "Dev",
    some "2024-01-01", none⟩

/-- The document registering `bodyJane` stores (id 1, at time 5). -/
def recJane : Employee :=
  ⟨1, "Jane Doe", "jane@x.com", "E1", "Eng", "Dev", "2024-01-01", 5⟩

/-- A submission re-using Jane's email (up to case) with a fresh employeeId. -/
def bodyCase : Body :=
  ⟨some "Bob Roe", some "JANE@X.COM", some "E2", some "Ops", some "QA",
    some "2024-02-02", none⟩

/-- A submission with a fresh email but Jane's employeeId. -/
def bodyDupId : Body :=
  ⟨some "Bob Roe", some "bob@x.com", some "E1", some "Ops", some "QA",
    some "2024-02-02", none⟩

/-- Scenario D's submission: `employeeId` omitted. -/
def bodyNoId : Body :=
  ⟨some "Jane Doe", some "jane@x.com", none, some "Eng", some "Dev",
    some "2024-01-01", none⟩

/-- Scenario C's submission: a malformed email shape. -/
def bodyBadEmail : Body :=
  ⟨some "Jane Doe", some "not-an-email", some "E1", some "Eng", some "Dev",
    some "2024-01-01", none⟩

/-- A submission whose fullName is non-empty but whitespace-only. -/
def bodyWsName : Body :=
  ⟨some "   ", some "jane@x.com", some "E1", some "Eng", some "Dev",
    some "2024-01-01", none⟩

/-- A store-unreachable failure: not a `ValidationError`. -/
def netError : JsError := ⟨"MongoNetworkError", [], []⟩

instance : DecidableEq (Except JsError Employee) := fun x y =>
  match x, y with
  | .ok a, .ok b =>
    if h : a = b then isTrue (by rw [h]) else isFalse (by simp [h])
  | .error a, .error b =>
    if h : a = b then isTrue (by rw [h]) else isFalse (by simp [h])
  | .ok _, .error _ => isFalse (by simp)
  | .error _, .ok _ => isFalse (by simp)

theorem toLower_eq_ofNat (c : Char) (h : 65 ≤ c.toNat ∧ c.toNat ≤ 90) :
    c.toLower = Char.ofNat (c.toNat + 32) := by
  show (if c.toNat ≥ 65 ∧ c.toNat ≤ 90 then Char.ofNat (c.toNat + 32) else c) = _
  rw [if_pos ⟨h.1, h.2⟩]

theorem toLower_eq_self (c : Char) (h : ¬(65 ≤ c.toNat ∧ c.toNat ≤ 90)) :
    c.toLower = c := by
  show (if c.toNat ≥ 65 ∧ c.toNat ≤ 90 then Char.ofNat (c.toNat + 32) else c) = _
  rw [if_neg h]

theorem toNat_ofNat_shift (n : Nat) (h1 : 65 ≤ n) (h2 : n ≤ 90) :
    (Char.ofNat (n + 32)).toNat = n + 32 := by
  interval_cases n <;> decide

theorem toLower_toLower (c : Char) : c.toLower.toLower = c.toLower := by
  by_cases h : 65 ≤ c.toNat ∧ c.toNat ≤ 90
  · rw [toLower_eq_ofNat c h]
    apply toLower_eq_self
    rw [toNat_ofNat_shift c.toNat h.1 h.2]
    omega
  · rw [toLower_eq_self c h, toLower_eq_self c h]

theorem toNat_of_ws (c : Char) (h : c.isWhitespace = true) :
    c.toNat = 32 ∨ c.toNat = 9 ∨ c.toNat = 13 ∨ c.toNat = 10 := by
  have h' : c = ' ' ∨ c = '\t' ∨ c = '\r' ∨ c = '\n' := by
    simpa [Char.isWhitespace, or_assoc] using h
  rcases h' with h' | h' | h' | h' <;> subst h' <;> decide

theorem not_ws_of_ge (c : Char) (h : 65 ≤ c.toNat) : c.isWhitespace = false := by
  cases hw : c.isWhitespace
  · rfl
  · rcases toNat_of_ws c hw with h' | h' | h' | h' <;> omega

theorem isWhitespace_toLower (c : Char) :
    c.toLower.isWhitespace = c.isWhitespace := by
  by_cases h : 65 ≤ c.toNat ∧ c.toNat ≤ 90
  · rw [toLower_eq_ofNat c h]
    rw [not_ws_of_ge _ h.1]
    apply not_ws_of_ge
    rw [toNat_ofNat_shift c.toNat h.1 h.2]
    omega
  · rw [toLower_eq_self c h]

theorem stripLeadWS_cons_ws {c : Char} (l : List Char) (h : c.isWhitespace = true) :
    stripLeadWS (c :: l) = stripLeadWS l := by
  simp [stripLeadWS, h]

theorem stripLeadWS_cons_not {c : Char} (l : List Char) (h : c.isWhitespace = false) :
    stripLeadWS (c :: l) = c :: l := by
  simp [stripLeadWS, h]

theorem stripLeadWS_idem (l : List Char) :
    stripLeadWS (stripLeadWS l) = stripLeadWS l := by
  induction l with
  | nil => rfl
  | cons c cs ih =>
    cases hw : c.isWhitespace
    · rw [stripLeadWS_cons_not cs hw, stripLeadWS_cons_not cs hw]
    · rw [stripLeadWS_cons_ws cs hw, ih]

theorem stripLeadWS_head (l : List Char) {c : Char} {cs : List Char}
    (h : stripLeadWS l = c :: cs) : c.isWhitespace = false := by
  induction l with
  | nil => simp [stripLeadWS] at h
  | cons a tl ih =>
    cases hw : a.isWhitespace
    · rw [stripLeadWS_cons_not tl hw] at h
      cases h
      exact hw
    · rw [stripLeadWS_cons_ws tl hw] at h
      exact ih h

theorem stripLeadWS_restore (l : List Char) :
    ∃ w, l = w ++ stripLeadWS l := by
  induction l with
  | nil => exact ⟨[], rfl⟩
  | cons a tl ih =>
    cases hw : a.isWhitespace
    · exact ⟨[], by simp [stripLeadWS_cons_not tl hw]⟩
    · obtain ⟨w, hw'⟩ := ih
      exact ⟨a :: w, by rw [stripLeadWS_cons_ws tl hw]; simpa using hw'⟩

theorem trimChars_idem (l : List Char) :
    trimChars (trimChars l) = trimChars l := by
  unfold trimChars
  have hb : stripLeadWS (stripLeadWS (stripLeadWS l).reverse) =
      stripLeadWS (stripLeadWS l).reverse := stripLeadWS_idem _
  have hfix : stripLeadWS (stripLeadWS (stripLeadWS l).reverse).reverse =
      (stripLeadWS (stripLeadWS l).reverse).reverse := by
    cases hbr : (stripLeadWS (stripLeadWS l).reverse).reverse with
    | nil => rfl
    | cons y t =>
      obtain ⟨w, hw⟩ := stripLeadWS_restore (stripLeadWS l).reverse
      have ha : stripLeadWS l =
          (stripLeadWS (stripLeadWS l).reverse).reverse ++ w.reverse := by
        have := congrArg List.reverse hw
        simpa using this
      rw [hbr] at ha
      have hy : y.isWhitespace = false := by
        apply stripLeadWS_head l

        rw [ha]
        rfl
      exact stripLeadWS_cons_not t hy
  rw [hfix, List.reverse_reverse, hb]

theorem stripLeadWS_map_toLower (l : List Char) :
    stripLeadWS (l.map Char.toLower) = (stripLeadWS l).map Char.toLower := by
  induction l with
  | nil => rfl
  | cons c cs ih =>
    cases hw : c.isWhitespace
    · have hw' : (Char.toLower c).isWhitespace = false := by
        rw [isWhitespace_toLower]; exact hw
      simp only [List.map_cons]
      rw [stripLeadWS_cons_not _ hw', stripLeadWS_cons_not cs hw]
      rfl
    · have hw' : (Char.toLower c).isWhitespace = true := by
        rw [isWhitespace_toLower]; exact hw
      simp only [List.map_cons]
      rw [stripLeadWS_cons_ws _ hw', stripLeadWS_cons_ws cs hw, ih]

theorem trimChars_map_toLower (l : List Char) :
    trimChars (l.map Char.toLower) = (trimChars l).map Char.toLower := by
  unfold trimChars
  rw [stripLeadWS_map_toLower, ← List.map_reverse, stripLeadWS_map_toLower,
    ← List.map_reverse]

theorem map_toLower_idem (l : List Char) :
    (l.map Char.toLower).map Char.toLower = l.map Char.toLower := by
  induction l with
  | nil => rfl
  | cons c cs ih => simp only [List.map_cons, ih, toLower_toLower]

theorem jsTrim_idem (s : String) : jsTrim (jsTrim s) = jsTrim s :=
  congrArg String.mk (trimChars_idem s.data)

theorem normEmail_idem (s : String) : normEmail (normEmail s) = normEmail s := by
  show String.mk ((trimChars ((trimChars s.data).map Char.toLower)).map Char.toLower) =
    String.mk ((trimChars s.data).map Char.toLower)
  rw [trimChars_map_toLower, trimChars_idem, map_toLower_idem]

theorem register_eq (now newId : Nat) (s₁ s₂ : Store) (b : Body) :
    register now newId s₁ s₂ b =
      if missingAny b then (requiredResp, s₂)
      else
        match findByEmail s₁ (b.email.getD "") with
        | some _ => (emailConflictResp, s₂)
        | none =>
          match findById s₁ (b.employeeId.getD "") with
          | some _ => (idConflictResp, s₂)
          | none =>
            match mongooseSave s₂ (buildDoc now newId b) with
            | .error e => (catchHandler e, s₂)
            | .ok r => (successResp r, s₂ ++ [r]) := by
  unfold register tryRegister
  cases hm : missingAny b
  · simp only [Bool.false_eq_true, if_false]
    cases findByEmail s₁ (b.email.getD "") <;>
      cases findById s₁ (b.employeeId.getD "") <;>
        cases mongooseSave s₂ (buildDoc now newId b) <;> rfl
  · rfl

theorem findByEmail_none (s : Store) (v : String)
    (h : ∀ r ∈ s, r.email ≠ normEmail v) : findByEmail s v = none := by
  rw [findByEmail, List.find?_eq_none]
  intro x hx
  simpa using h x hx

theorem findByEmail_some (s : Store) (v : String)
    (h : ∃ r ∈ s, r.email = normEmail v) : ∃ r, findByEmail s v = some r := by
  cases hf : findByEmail s v with
  | some r => exact ⟨r, rfl⟩
  | none =>
    rw [findByEmail, List.find?_eq_none] at hf
    obtain ⟨r, hr, he⟩ := h
    exact absurd he (by simpa using hf r hr)

theorem findById_none (s : Store) (v : String)
    (h : ∀ r ∈ s, r.employeeId ≠ jsTrim v) : findById s v = none := by
  rw [findById, List.find?_eq_none]
  intro x hx
  simpa using h x hx

theorem findById_some (s : Store) (v : String)
    (h : ∃ r ∈ s, r.employeeId = jsTrim v) : ∃ r, findById s v = some r := by
  cases hf : findById s v with
  | some r => exact ⟨r, rfl⟩
  | none =>
    rw [findById, List.find?_eq_none] at hf
    obtain ⟨r, hr, he⟩ := h
    exact absurd he (by simpa using hf r hr)

theorem save_ok {s : Store} {d r : Employee}
    (h : mongooseSave s d = .ok r) :
    r = d ∧ validateDoc d = [] ∧ (∀ x ∈ s, x.email ≠ d.email) ∧
      ∀ x ∈ s, x.employeeId ≠ d.employeeId := by
  unfold mongooseSave at h
  cases hv : validateDoc d with
  | cons p ps => rw [hv] at h; exact absurd h (by simp)
  | nil =>
    rw [hv] at h
    cases he : s.any fun x => x.email == d.email
    · cases hi : s.any fun x => x.employeeId == d.employeeId
      · rw [he, hi] at h
        simp only [Bool.false_eq_true, if_false, Except.ok.injEq] at h
        refine ⟨h.symm, rfl, fun x hx => ?_, fun x hx => ?_⟩
        · have := List.any_eq_false.mp he x hx
          simpa using this
        · have := List.any_eq_false.mp hi x hx
          simpa using this
      · rw [he, hi] at h; exact absurd h (by simp)
    · rw [he] at h; exact absurd h (by simp)

theorem save_validation {d : Employee} (s : Store)
    {errs : List (String × String)}
    (hv : validateDoc d = errs) (hne : errs ≠ []) :
    mongooseSave s d = .error (validationError errs) := by
  unfold mongooseSave
  rw [hv]
  cases errs with
  | nil => exact absurd rfl hne
  | cons p ps => rfl

theorem save_dup {s : Store} {d : Employee}
    (hv : validateDoc d = [])
    (hd : ∃ r ∈ s, r.email = d.email ∨ r.employeeId = d.employeeId) :
    ∃ f, mongooseSave s d = .error (duplicateKeyError f) := by
  unfold mongooseSave
  rw [hv]
  cases he : s.any fun x => x.email == d.email
  · cases hi : s.any fun x => x.employeeId == d.employeeId
    · exfalso
      obtain ⟨r, hr, h | h⟩ := hd
      · exact absurd (by simpa using h) (by simpa using List.any_eq_false.mp he r hr)
      · exact absurd (by simpa using h) (by simpa using List.any_eq_false.mp hi r hr)
    · exact ⟨"employeeId", by simp⟩
  · exact ⟨"email", by simp⟩

theorem buildDoc_fix (now newId : Nat) (b : Body) :
    normEmail (buildDoc now newId b).email = (buildDoc now newId b).email ∧
      jsTrim (buildDoc now newId b).employeeId =
        (buildDoc now newId b).employeeId := by
  constructor
  · exact normEmail_idem _
  · exact jsTrim_idem _

theorem register_WF (now newId : Nat) (s : Store) (b : Body)
    (h : StoreWF s) : StoreWF (register now newId s s b).2 := by
  rw [register_eq]
  cases hm : missingAny b
  · simp only [Bool.false_eq_true, if_false]
    cases findByEmail s (b.email.getD "") with
    | some r => exact h
    | none =>
      cases findById s (b.employeeId.getD "") with
      | some r => exact h
      | none =>
        cases hs : mongooseSave s (buildDoc now newId b) with
        | error e => exact h
        | ok r =>
          obtain ⟨rfl, _, hne, hni⟩ := save_ok hs
          constructor
          · intro x hx
            rcases List.mem_append.mp hx with hx | hx
            · exact h.1 x hx
            · rcases List.mem_singleton.mp hx with rfl
              exact buildDoc_fix now newId b
          · rw [List.pairwise_append]
            refine ⟨h.2, List.pairwise_singleton _ _, ?_⟩
            intro a ha x hx
            rcases List.mem_singleton.mp hx with rfl
            have hfa := h.1 a ha
            have hfd := buildDoc_fix now newId b
            constructor
            · rw [hfa.1, hfd.1]
              exact hne a ha
            · rw [hfa.2, hfd.2]
              exact hni a ha
  · exact h

theorem registerAll_WF (l : List (Nat × Nat × Body)) :
    StoreWF (registerAll l) := by
  have main : ∀ (l : List (Nat × Nat × Body)) (s : Store),
      StoreWF s → StoreWF (l.foldl registerStep s) := by
    intro l
    induction l with
    | nil => intro s h; exact h
    | cons x xs ih =>
      intro s h
      exact ih _ (register_WF x.1 x.2.1 s x.2.2 h)
  refine main l [] ⟨?_, List.Pairwise.nil⟩
  intro r hr
  exact absurd hr (List.not_mem_nil r)

theorem catchHandler_status (e : JsError) :
    (catchHandler e).status = 400 ∨ (catchHandler e).status = 500 := by
  unfold catchHandler
  cases hb : e.name == "ValidationError" <;>
    simp [hb, validationResp, serverErrorResp]

theorem register_201 (now newId : Nat) (s₁ s₂ : Store) (b : Body)
    (h201 : (register now newId s₁ s₂ b).1.status = 201) :
    register now newId s₁ s₂ b =
      (successResp (buildDoc now newId b), s₂ ++ [buildDoc now newId b]) := by
  rw [register_eq] at h201 ⊢
  cases hm : missingAny b
  · simp only [hm, Bool.false_eq_true, if_false] at h201 ⊢
    cases hfe : findByEmail s₁ (b.email.getD "") with
    | some r =>
      rw [hfe] at h201
      replace h201 : emailConflictResp.status = 201 := h201
      exact absurd h201 (by decide)
    | none =>
      rw [hfe] at h201
      cases hfi : findById s₁ (b.employeeId.getD "") with
      | some r =>
        rw [hfi] at h201
        replace h201 : idConflictResp.status = 201 := h201
        exact absurd h201 (by decide)
      | none =>
        rw [hfi] at h201
        cases hs : mongooseSave s₂ (buildDoc now newId b) with
        | error e =>
          rw [hs] at h201
          replace h201 : (catchHandler e).status = 201 := h201
          rcases catchHandler_status e with h | h <;> omega
        | ok r =>
          obtain ⟨rfl, -, -, -⟩ := save_ok hs
          rfl
  · rw [hm] at h201
    replace h201 : requiredResp.status = 201 := h201
    exact absurd h201 (by decide)

/-- C3: a submission with any of the six client-supplied fields missing or
empty (JS-falsy) is rejected with a 400 carrying the generic
`All fields are required.` message, the store is never consulted (the
handler's result does not depend on any store-operation outcome), and no
record is created. -/
theorem missing_field_rejected (b : Body) (h : missingAny b = true) :
    (∀ findE findI saveRes,
      tryRegister findE findI saveRes b = (requiredResp, none)) ∧
    (∀ now newId s₁ s₂, register now newId s₁ s₂ b = (requiredResp, s₂)) ∧
    requiredResp = ⟨400, "All fields are required.", none, none⟩ := by
  refine ⟨fun findE findI saveRes => ?_, fun now newId s₁ s₂ => ?_, rfl⟩
  · unfold tryRegister
    simp [h]
  · rw [register_eq]
    simp [h]

/-- C3 witness: Scenario D — `employeeId` omitted. -/
theorem missing_field_rejected_witness :
    missingAny bodyNoId = true ∧
    register 3 1 [recJane] [recJane] bodyNoId = (requiredResp, [recJane]) :=
  ⟨by decide,
    (missing_field_rejected bodyNoId (by decide)).2.1 3 1 [recJane] [recJane]⟩

/-- C4: a submission whose (store-normalised) email equals a stored record's
email is rejected 400 with the conflict attributed to `email`, the error map
containing exactly that field, and no record is created — regardless of the
submitted employeeId. -/
theorem duplicate_email_conflict (now newId : Nat) (s₁ s₂ : Store) (b : Body)
    (hp : missingAny b = false)
    (he : ∃ r ∈ s₁, r.email = normEmail (b.email.getD "")) :
    register now newId s₁ s₂ b = (emailConflictResp, s₂) ∧
      emailConflictResp =
        ⟨400, "An employee with this email already exists.",
          some [("email", "Email already in use.")], none⟩ := by
  refine ⟨?_, rfl⟩
  rw [register_eq]
  obtain ⟨r, hr⟩ := findByEmail_some s₁ _ he
  simp only [hp, Bool.false_eq_true, if_false]
  rw [hr]

/-- C4 witness: re-submitting Jane's email (different case, different
employeeId) against a store holding Jane's record. -/
theorem duplicate_email_conflict_witness :
    missingAny bodyCase = false ∧
    (∃ r ∈ [recJane], r.email = normEmail (bodyCase.email.getD "")) ∧
    register 9 2 [recJane] [recJane] bodyCase = (emailConflictResp, [recJane]) :=
  ⟨by decide, by decide,
    (duplicate_email_conflict 9 2 [recJane] [recJane] bodyCase (by decide)
      (by decide)).1⟩

/-- C5: when no stored record matches the email but one matches the (trimmed)
employeeId, the handler rejects 400 attributing the conflict to `employeeId`
with exactly that field in the error map and creates no record; and the
email check runs first — when both pre-checks would match, the email
conflict is the one reported. -/
theorem duplicate_id_conflict (now newId : Nat) (s₁ s₂ : Store) (b : Body)
    (hp : missingAny b = false) :
    ((∀ r ∈ s₁, r.email ≠ normEmail (b.email.getD "")) →
      (∃ r ∈ s₁, r.employeeId = jsTrim (b.employeeId.getD "")) →
      register now newId s₁ s₂ b = (idConflictResp, s₂) ∧
        idConflictResp =
          ⟨400, "An employee with this Employee ID already exists.",
            some [("employeeId", "Employee ID already in use.")], none⟩) ∧
    ((∃ r ∈ s₁, r.email = normEmail (b.email.getD "")) →
      register now newId s₁ s₂ b = (emailConflictResp, s₂)) := by
  constructor
  · intro he hi
    refine ⟨?_, rfl⟩
    rw [register_eq]
    obtain ⟨r, hr⟩ := findById_some s₁ _ hi
    simp only [hp, Bool.false_eq_true, if_false]
    rw [findByEmail_none s₁ _ he, hr]
  · intro he
    rw [register_eq]
    obtain ⟨r, hr⟩ := findByEmail_some s₁ _ he
    simp only [hp, Bool.false_eq_true, if_false]
    rw [hr]

/-- C5 witness: fresh email, Jane's employeeId. -/
theorem duplicate_id_conflict_witness :
    missingAny bodyDupId = false ∧
    register 9 2 [recJane] [recJane] bodyDupId = (idConflictResp, [recJane]) :=
  ⟨by decide,
    ((duplicate_id_conflict 9 2 [recJane] [recJane] bodyDupId (by decide)).1
      (by decide) (by decide)).1⟩

/-- C6: when the store rejects the insert for field-level schema reasons, the
handler translates the per-field violations into a field→message map and
responds 400 with that aggregate map; every rejected field is covered. -/
theorem store_validation_translated (now newId : Nat) (s₁ s₂ : Store)
    (b : Body) (errs : List (String × String))
    (hp : missingAny b = false)
    (he : ∀ r ∈ s₁, r.email ≠ normEmail (b.email.getD ""))
    (hi : ∀ r ∈ s₁, r.employeeId ≠ jsTrim (b.employeeId.getD ""))
    (hv : validateDoc (buildDoc now newId b) = errs) (hne : errs ≠ []) :
    register now newId s₁ s₂ b = (validationResp errs, s₂) ∧
      validationResp errs =
        ⟨400, "Validation failed. Please check your input.", some errs, none⟩ ∧
      ∀ p ∈ validateDoc (buildDoc now newId b), p ∈ errs := by
  refine ⟨?_, rfl, fun p hmem => hv ▸ hmem⟩
  rw [register_eq]
  simp only [hp, Bool.false_eq_true, if_false]
  rw [findByEmail_none s₁ _ he, findById_none s₁ _ hi,
    save_validation s₂ hv hne]
  simp [catchHandler, validationError, validationResp]

/-- C6 witness: Scenario C — email `not-an-email` fails the store's format
rule and surfaces as a field-level error on `email`. -/
theorem store_validation_translated_witness :
    validateDoc (buildDoc 7 1 bodyBadEmail) =
      [("email", "Please enter a valid email address.")] ∧
    register 7 1 [] [] bodyBadEmail =
      (validationResp [("email", "Please enter a valid email address.")],
        []) :=
  ⟨by decide,
    (store_validation_translated 7 1 [] [] bodyBadEmail
      [("email", "Please enter a valid email address.")] (by decide)
      (by decide) (by decide) (by decide) (by decide)).1⟩

/-- C7: every 201 response carries the success message and a projection with
exactly `id`, `fullName`, `email`, `employeeId` (the `EmployeeView` type has
no other components, so department/position/dates cannot appear). -/
theorem success_projection (now newId : Nat) (s₁ s₂ : Store) (b : Body)
    (h201 : (register now newId s₁ s₂ b).1.status = 201) :
    (register now newId s₁ s₂ b).1 =
      ⟨201, "Employee registered successfully!", none,
        some ⟨newId, (buildDoc now newId b).fullName,
          (buildDoc now newId b).email, (buildDoc now newId b).employeeId⟩⟩ := by
  rw [register_201 now newId s₁ s₂ b h201]
  rfl

/-- C7 witness: Scenario A. -/
theorem success_projection_witness :
    (register 5 1 [] [] bodyJane).1 =
      ⟨201, "Employee registered successfully!", none,
        some ⟨1, "Jane Doe", "jane@x.com", "E1"⟩⟩ := by
  have h := success_projection 5 1 [] [] bodyJane (by decide)
  rw [h]
  decide

/-- C8: `registrationDate` is server-assigned: the handler's outcome is
unchanged under any client-supplied `registrationDate`, and a successfully
created record carries the server creation time `now`. -/
theorem auto_registration_date (now newId : Nat) (s₁ s₂ : Store) (b : Body) :
    (∀ v, register now newId s₁ s₂ { b with registrationDate := v } =
      register now newId s₁ s₂ b) ∧
    ((register now newId s₁ s₂ b).1.status = 201 →
      (register now newId s₁ s₂ b).2 = s₂ ++ [buildDoc now newId b] ∧
        (buildDoc now newId b).registrationDate = now) := by
  constructor
  · intro v
    cases b
    rfl
  · intro h201
    have h := register_201 now newId s₁ s₂ b h201
    exact ⟨by rw [h], rfl⟩

/-- C8 witness: a client-supplied `registrationDate` is ignored, and the
stored record's `registrationDate` is the creation time 5. -/
theorem auto_registration_date_witness :
    register 5 1 [] [] { bodyJane with registrationDate := some "1999-01-01" } =
      register 5 1 [] [] bodyJane ∧
    ((register 5 1 [] [] bodyJane).2 = [] ++ [buildDoc 5 1 bodyJane] ∧
      (buildDoc 5 1 bodyJane).registrationDate = 5) :=
  ⟨(auto_registration_date 5 1 [] [] bodyJane).1 (some "1999-01-01"),
    (auto_registration_date 5 1 [] [] bodyJane).2 (by decide)⟩

/-- C9: any store-operation failure whose error is not a `ValidationError`
(store unreachable, unexpected exception) — thrown at either pre-check or at
the insert — produces exactly the generic 500 response: fixed message, no
error map, no employee data, so no internal detail reaches the client. -/
theorem internal_failure_500 (b : Body) (e : JsError)
    (findI : Except JsError (Option Employee))
    (saveRes : Except JsError Employee)
    (hp : missingAny b = false) (hn : e.name ≠ "ValidationError") :
    catchHandler e = serverErrorResp ∧
    serverErrorResp =
      ⟨500, "Server error during registration. Please try again later.",
        none, none⟩ ∧
    tryRegister (.error e) findI saveRes b = (serverErrorResp, none) ∧
    tryRegister (.ok none) (.error e) saveRes b = (serverErrorResp, none) ∧
    tryRegister (.ok none) (.ok none) (.error e) b = (serverErrorResp, none) := by
  have hb : (e.name == "ValidationError") = false := by
    simpa using hn
  have hc : catchHandler e = serverErrorResp := by
    simp [catchHandler, hb]
  refine ⟨hc, rfl, ?_, ?_, ?_⟩ <;> simp [tryRegister, hp, hc]

/-- C9 witness: a network failure at the first pre-check. -/
theorem internal_failure_500_witness :
    catchHandler netError = serverErrorResp ∧
    tryRegister (.error netError) (.ok none) (.error netError) bodyJane =
      (serverErrorResp, none) := by
  have h := internal_failure_500 bodyJane netError (.ok none) (.error netError)
    (by decide) (by decide)
  exact ⟨h.1, h.2.2.1⟩

/-- C10: a whitespace-only (hence truthy) required field passes the presence
check; the request reaches the store, whose trim + required rules reject it,
and the failure surfaces as the store-level validation 400 with a per-field
error map — not as the generic `All fields are required.` message. -/
theorem whitespace_passes_presence (now newId : Nat) (s₁ s₂ : Store) (b : Body)
    (hp : missingAny b = false)
    (he : ∀ r ∈ s₁, r.email ≠ normEmail (b.email.getD ""))
    (hi : ∀ r ∈ s₁, r.employeeId ≠ jsTrim (b.employeeId.getD ""))
    (hw : jsTrim (b.fullName.getD "") = "" ∨
      normEmail (b.email.getD "") = "" ∨
      jsTrim (b.employeeId.getD "") = "" ∨
      jsTrim (b.department.getD "") = "" ∨
      jsTrim (b.position.getD "") = "") :
    validateDoc (buildDoc now newId b) ≠ [] ∧
    register now newId s₁ s₂ b =
      (validationResp (validateDoc (buildDoc now newId b)), s₂) ∧
    (validationResp (validateDoc (buildDoc now newId b))).message ≠
      "All fields are required." := by
  have hne : validateDoc (buildDoc now newId b) ≠ [] := by
    rcases hw with h | h | h | h | h <;> simp [validateDoc, buildDoc, h]
  refine ⟨hne, ?_,
    (by decide :
      ("Validation failed. Please check your input." : String) ≠
        "All fields are required.")⟩
  rw [register_eq]
  simp only [hp, Bool.false_eq_true, if_false]
  rw [findByEmail_none s₁ _ he, findById_none s₁ _ hi,
    save_validation s₂ rfl hne]
  simp [catchHandler, validationError, validationResp]

/-- C10 witness: fullName `"   "` passes the presence check and is rejected
by the store's required rule. -/
theorem whitespace_passes_presence_witness :
    missingAny bodyWsName = false ∧
    register 4 1 [] [] bodyWsName =
      (validationResp (validateDoc (buildDoc 4 1 bodyWsName)), []) ∧
    validateDoc (buildDoc 4 1 bodyWsName) =
      [("fullName", "Full name is required.")] := by
  have h := whitespace_passes_presence 4 1 [] [] bodyWsName (by decide)
    (by decide) (by decide) (Or.inl (by decide))
  exact ⟨by decide, h.2.1, by decide⟩

/-- C2: after any sequence of submissions (the accepted ones being exactly
those that inserted), no two stored records share an email — compared
case-insensitively after trimming — and no two share a (trimmed)
employeeId; the uniqueness invariant holds of the store every operation
leaves behind. -/
theorem uniqueness_invariant (l : List (Nat × Nat × Body)) :
    (registerAll l).Pairwise fun a b =>
      normEmail a.email ≠ normEmail b.email ∧
        jsTrim a.employeeId ≠ jsTrim b.employeeId :=
  (registerAll_WF l).2

/-- C1 counterexample: a submission that passes the presence check and both
pre-checks (taken against an empty snapshot) and whose insert is rejected by
the unique index (a concurrent request stored the same email in between)
gets the generic 500 — not the claimed 400 conflict with a per-field map:
the duplicate-key rejection is not named `ValidationError`, so the catch
block's translation does not apply. -/
theorem race_duplicate_counterexample :
    missingAny bodyJane = false ∧
    findByEmail [] (bodyJane.email.getD "") = none ∧
    findById [] (bodyJane.employeeId.getD "") = none ∧
    validateDoc (buildDoc 9 2 bodyJane) = [] ∧
    mongooseSave [recJane] (buildDoc 9 2 bodyJane) =
      .error (duplicateKeyError "email") ∧
    register 9 2 [] [recJane] bodyJane = (serverErrorResp, [recJane]) ∧
    serverErrorResp.status = 500 ∧ serverErrorResp.errors = none := by
  decide

/-- C1 (amended): a submission passing the presence check and both pre-checks
whose insert is rejected by the store's unique index (race-induced duplicate
email or employeeId) is answered with the generic 500 internal-error
response — not the 400 conflict class — and no record is created. -/
theorem race_duplicate_500 (now newId : Nat) (s₁ s₂ : Store) (b : Body)
    (hp : missingAny b = false)
    (he : ∀ r ∈ s₁, r.email ≠ normEmail (b.email.getD ""))
    (hi : ∀ r ∈ s₁, r.employeeId ≠ jsTrim (b.employeeId.getD ""))
    (hv : validateDoc (buildDoc now newId b) = [])
    (hd : ∃ r ∈ s₂, r.email = (buildDoc now newId b).email ∨
      r.employeeId = (buildDoc now newId b).employeeId) :
    register now newId s₁ s₂ b = (serverErrorResp, s₂) ∧
      serverErrorResp =
        ⟨500, "Server error during registration. Please try again later.",
          none, none⟩ := by
  refine ⟨?_, rfl⟩
  obtain ⟨f, hf⟩ := save_dup hv hd
  rw [register_eq]
  simp only [hp, Bool.false_eq_true, if_false]
  rw [findByEmail_none s₁ _ he, findById_none s₁ _ hi, hf]
  rfl

/-- C1 (amended) witness: the race of `race_duplicate_counterexample`. -/
theorem race_duplicate_500_witness :
    register 9 2 [] [recJane] bodyJane = (serverErrorResp, [recJane]) :=
  (race_duplicate_500 9 2 [] [recJane] bodyJane (by decide) (by decide)
    (by decide) (by decide) ⟨recJane, by decide, Or.inl (by decide)⟩).1

end EmployeeReg
